import Mathlib

/-!
Shallow embedding of the core of the `document-features` crate
(`src/lib.rs`: `process_toml`, `get_balanced` and the final rendering
loop), together with spec-side definitions and theorems settling the
specification claims.

Strings are modelled by Lean `String` (a wrapper around `List Char`);
every character-level operation the Rust code uses (`trim`,
`starts_with`, `split_once`, `rsplit_once`, `trim_matches`, ...) is
implemented here by structural recursion over `List Char`, so that all
definitions evaluate by `decide`/`rfl`.  The byte-at-a-time scanner of
`get_balanced` is modelled char-at-a-time: every byte it reacts to is
ASCII, and the bytes of a multi-byte character are all `≥ 0x80`, hence
fall into the scanner's default branch exactly as the whole character
does here.
-/

deriving instance DecidableEq for Except

namespace DocumentFeatures

/-- The apostrophe character (ASCII 39). -/
def squote : Char := Char.ofNat 39

/-- The double-quote character (ASCII 34). -/
def dquote : Char := Char.ofNat 34

/-- The backslash character (ASCII 92). -/
def bslash : Char := Char.ofNat 92

/-- The `#` character (ASCII 35). -/
def hashc : Char := Char.ofNat 35

/-- The newline character (ASCII 10). -/
def nlchar : Char := Char.ofNat 10

/-- Rust `str::trim` on a character list (both ends, whitespace). -/
def trimL (l : List Char) : List Char :=
  ((l.dropWhile Char.isWhitespace).reverse.dropWhile Char.isWhitespace).reverse

/-- Rust `str::trim`. -/
def strTrim (s : String) : String := String.mk (trimL s.data)

/-- Rust `str::starts_with` with a string pattern. -/
def strStartsWith (s pre : String) : Bool := pre.data.isPrefixOf s.data

/-- Rust `str::ends_with` with a string pattern. -/
def strEndsWith (s suf : String) : Bool := suf.data.isSuffixOf s.data

/-- Drop the first `n` characters (used for `strip_prefix` after a
`starts_with` check; all prefixes used are ASCII). -/
def strDrop (s : String) (n : Nat) : String := String.mk (s.data.drop n)

/-- Drop the last `n` characters (used for `strip_suffix`). -/
def strDropRight (s : String) (n : Nat) : String :=
  String.mk (s.data.take (s.data.length - n))

/-- Rust `str::is_empty`. -/
def strIsEmpty (s : String) : Bool := s.data.isEmpty

/-- Split a character list at every occurrence of the character `c`
(Rust `str::split` with a single-character pattern); always returns at
least one piece. -/
def splitCharL (c : Char) : List Char → List (List Char)
  | [] => [[]]
  | a :: l =>
    if a = c then [] :: splitCharL c l
    else
      match splitCharL c l with
      | [] => [[a]]
      | h :: t => (a :: h) :: t

/-- Rust `str::split_once`: split at the first occurrence of the
(nonempty) pattern `sep`.  Fuel-driven structural recursion; any
`fuel ≥ l.length` gives the exact semantics. -/
def splitOnceL (sep : List Char) : Nat → List Char → Option (List Char × List Char)
  | _, [] => none
  | 0, _ :: _ => none
  | fuel + 1, a :: l =>
    if sep.isPrefixOf (a :: l) then some ([], (a :: l).drop sep.length)
    else
      match splitOnceL sep fuel l with
      | none => none
      | some (x, y) => some (a :: x, y)

/-- Rust `str::split_once` on strings. -/
def splitOnceS (s sep : String) : Option (String × String) :=
  match splitOnceL sep.data s.data.length s.data with
  | none => none
  | some (a, b) => some (String.mk a, String.mk b)

/-- Rust `str::rsplit_once`: split at the last occurrence of `sep`,
computed as the first occurrence of the reversed pattern in the
reversed string (all patterns used are a single character, so the two
views agree). -/
def rsplitOnceS (s sep : String) : Option (String × String) :=
  match splitOnceL sep.data.reverse s.data.length s.data.reverse with
  | none => none
  | some (a, b) => some (String.mk b.reverse, String.mk a.reverse)

/-- `sub` occurs as a contiguous substring of the list. -/
def containsL (sub : List Char) : List Char → Bool
  | [] => sub.isEmpty
  | a :: l => sub.isPrefixOf (a :: l) || containsL sub l

/-- `s` contains `sub` as a contiguous substring. -/
def containsS (s sub : String) : Bool := containsL sub.data s.data

/-- Rust `str::trim_matches` with a character predicate: strip all
matching characters from both ends. -/
def trimMatchesL (p : Char → Bool) (l : List Char) : List Char :=
  ((l.dropWhile p).reverse.dropWhile p).reverse

/-- The quote-character predicate of lib.rs line 232. -/
def isQuoteChar (c : Char) : Bool := c = dquote || c = squote

/-! ## The balanced-value reader (`get_balanced`, lib.rs 281-321) -/

/-- One byte of `get_balanced`'s scan (lib.rs 291-309).  The state is
`(last_slash, in_quote, level)`; `none` models the early
`return Err("unbalanced source")` taken when a closing bracket is seen
outside quotes at level `0`.  Note the faithful asymmetry: outside a
quote only `"` enters quote mode, while inside a quote either an
unescaped `"` or an unescaped `'` leaves it. -/
def scanChar (sl q : Bool) (lvl : Nat) (c : Char) : Option (Bool × Bool × Nat) :=
  if sl then some (false, q, lvl)
  else if q then
    if c = bslash then some (true, true, lvl)
    else if c = dquote ∨ c = squote then some (false, false, lvl)
    else some (false, true, lvl)
  else
    if c = dquote then some (false, true, lvl)
    else if c = '{' ∨ c = '[' then some (false, false, lvl + 1)
    else if c = '}' ∨ c = ']' then
      if lvl = 0 then none else some (false, false, lvl - 1)
    else some (false, false, lvl)

/-- Scan a whole line (the `for b in line.as_bytes()` loop). -/
def scanChars (sl q : Bool) (lvl : Nat) : List Char → Option (Bool × Bool × Nat)
  | [] => some (sl, q, lvl)
  | c :: cs =>
    match scanChar sl q lvl c with
    | none => none
    | some (sl2, q2, lvl2) => scanChars sl2 q2 lvl2 cs

/-- `line.split_once('#').map_or(line, |(x, _)| x)` (lib.rs 285 and 315):
keep everything strictly before the first `#`. -/
def cutHashL (l : List Char) : List Char := l.takeWhile (fun c => c ≠ hashc)

/-- String form of `cutHashL`. -/
def cutHashS (s : String) : String := String.mk (cutHashL s.data)

/-- The loop of `get_balanced` (lib.rs 290-320): scan the current line
(the per-line `last_slash` flag starts at `false`), return the
accumulator as soon as the nesting level is zero after a line,
otherwise pull the next line (comment-stripped) or fail. -/
def gbLoop (q : Bool) (lvl : Nat) (line acc : List Char) :
    List String → Except String (String × List String)
  | [] =>
    match scanChars false q lvl line with
    | none => .error "unbalanced source"
    | some (_, _, lvl2) =>
      if lvl2 = 0 then .ok (String.mk acc, []) else .error "unbalanced source"
  | l :: rest =>
    match scanChars false q lvl line with
    | none => .error "unbalanced source"
    | some (_, q2, lvl2) =>
      if lvl2 = 0 then .ok (String.mk acc, l :: rest)
      else gbLoop q2 lvl2 (cutHashL l.data) (acc ++ cutHashL l.data) rest

/-- `get_balanced` (lib.rs 281-321).  The Rust function pulls further
physical lines from the iterator shared with `process_toml`; here the
remaining lines are returned next to the joined value. -/
def get_balanced (first_line : String) (lines : List String) :
    Except String (String × List String) :=
  gbLoop false 0 (cutHashL first_line.data) (cutHashL first_line.data) lines

/-! ## The line scanner and structural parser (`process_toml`, lib.rs 178-279) -/

/-- Parser state of `process_toml` (lib.rs 187-191).  The Rust
`HashSet<String>` for the default features is modelled by a list, of
which only membership (`contains`) is ever queried. -/
structure PState where
  top_comment : String
  current_comment : String
  features : List (String × String × String)
  default_features : List String
  current_table : String
  deriving DecidableEq

/-- The initial parser state. -/
def initState : PState := ⟨"", "", [], [], ""⟩

/-- The `optional = true` test applied to a dependency's joined value
(lib.rs 238-241): split at the first occurrence of `optional`, the
trimmed remainder must start with `=`, and after dropping the `=` the
trimmed rest must start with `true`. -/
def optionalTrue (rest : String) : Bool :=
  match splitOnceS rest "optional" with
  | none => false
  | some (_, r) =>
    if strStartsWith (strTrim r) "=" then
      strStartsWith (strTrim (strDrop (strTrim r) 1)) "true"
    else false

/-- `strip_prefix("[")` then `strip_suffix("]")` (lib.rs 227-229). -/
def stripBrackets (t : String) : Option String :=
  if strStartsWith t "[" then
    let r := strDrop t 1
    if strEndsWith r "]" then some (strDropRight r 1) else none
  else none

/-- One item of the `default` list:
`d.trim().trim_matches(quote).trim()` (lib.rs 232). -/
def cleanItem (d : String) : String :=
  strTrim (String.mk (trimMatchesL isQuoteChar (strTrim d).data))

/-- Parse the value of the `default` key (lib.rs 226-233): strip the
surrounding brackets of the trimmed value, split at every comma, clean
each item, and discard the empty ones. -/
def parseDefaultItems (v : String) : Option (List String) :=
  match stripBrackets (strTrim v) with
  | none => none
  | some inner =>
    some (((splitCharL ',' inner.data).map (fun d => cleanItem (String.mk d))).filter
      (fun d => d ≠ ""))

/-- `features.push((name, take(top_comment), take(current_comment)))`
(lib.rs 216-220 and 254-258). -/
def pushFeature (st : PState) (name : String) : PState :=
  { st with
      features := st.features ++ [(name, st.top_comment, st.current_comment)],
      top_comment := "", current_comment := "" }

/-- The key/value branch of `process_toml`'s loop (lib.rs 222-259). -/
def handleKV (st : PState) (dep rest0 : String) (lines : List String) :
    Except String (PState × List String) :=
  match get_balanced rest0 lines with
  | .error e => .error ("Parse error while parsing dependency " ++ dep ++ ": " ++ e)
  | .ok (rest, lines2) =>
    let stepDefault : Except String PState :=
      if st.current_table = "features" ∧ strTrim dep = "default" then
        match parseDefaultItems rest with
        | none => .error ("Parse error while parsing dependency " ++ dep)
        | some items =>
          .ok { st with default_features := st.default_features ++ items }
      else .ok st
    match stepDefault with
    | .error e => .error e
    | .ok st1 =>
      if st1.current_comment ≠ "" then
        if strEndsWith st1.current_table "dependencies" then
          if optionalTrue rest then .ok (pushFeature st1 (strTrim dep), lines2)
          else .error ("Dependency " ++ strTrim dep ++ " is not an optional dependency")
        else if st1.current_table ≠ "features" then
          .error ("Comment cannot be associated with a feature:" ++ st1.current_comment)
        else .ok (pushFeature st1 (strTrim dep), lines2)
      else .ok (st1, lines2)

/-- The table-header branch (lib.rs 206-221): the part before the first
`]` (trimmed) becomes the current table; if an attached comment is
pending, the table path must split at its last dot into a prefix whose
trim ends with `dependencies`, and the final segment becomes an entry. -/
def handleHeader (st : PState) (line : String) : Except String PState :=
  match splitOnceS (strDrop line 1) "]" with
  | none => .error ("Parse error while parsing line: " ++ line)
  | some (t, _) =>
    let tbl := strTrim t
    if st.current_comment ≠ "" then
      match rsplitOnceS tbl "." with
      | some (tb, dp) =>
        if strEndsWith (strTrim tb) "dependencies" then
          .ok { st with
                  current_table := tbl,
                  features := st.features ++
                    [(strTrim dp, st.top_comment, st.current_comment)],
                  top_comment := "", current_comment := "" }
        else .error ("Not a feature: `" ++ line ++ "`")
      | none => .error ("Not a feature: `" ++ line ++ "`")
    else .ok { st with current_table := tbl }

/-- One iteration of the `while let Some(line)` loop (lib.rs 192-260). -/
def processLine (st : PState) (line : String) (rest : List String) :
    Except String (PState × List String) :=
  if strStartsWith line "#!" then
    let x := strDrop line 2
    if !strIsEmpty x && !strStartsWith x " " then .ok (st, rest)
    else if st.current_comment ≠ "" then
      .error "Cannot mix ## and #! comments between features."
    else .ok ({ st with top_comment := st.top_comment ++ x ++ "\n" }, rest)
  else if strStartsWith line "##" then
    let x := strDrop line 2
    if !strIsEmpty x && !strStartsWith x " " then .ok (st, rest)
    else .ok ({ st with current_comment := st.current_comment ++ " " ++ x ++ "\n" }, rest)
  else if strStartsWith line "[" then
    match handleHeader st line with
    | .error e => .error e
    | .ok st2 => .ok (st2, rest)
  else
    match splitOnceS line "=" with
    | some (dep, rest0) => handleKV st dep rest0 rest
    | none => .ok (st, rest)

/-- The scan loop over all lines.  Every iteration consumes at least the
head line (`get_balanced` only consumes further lines of the tail), so
any `fuel ≥ lines.length` yields the loop's exact semantics. -/
def processLines : Nat → PState → List String → Except String PState
  | _, st, [] => .ok st
  | 0, _, _ :: _ => .error "fuel exhausted"
  | fuel + 1, st, line :: rest =>
    match processLine st line rest with
    | .error e => .error e
    | .ok (st2, rest2) => processLines fuel st2 rest2

/-- The line filter (lib.rs 184-186): keep nonempty lines that either do
not start with `#` or start with `##` or `#!`. -/
def keepLine (l : String) : Bool :=
  !strIsEmpty l && (!strStartsWith l "#" || strStartsWith l "##" || strStartsWith l "#!")

/-- Split the manifest into lines, trim each, and apply the filter
(lib.rs 180-186).  Rust `str::lines` also removes a trailing `\r` and
the piece after a final `\n`; both are erased by the trim/empty filter
here, so splitting at every `\n` is equivalent. -/
def tomlLines (cargo_toml : String) : List String :=
  ((splitCharL nlchar cargo_toml.data).map (fun l => strTrim (String.mk l))).filter keepLine

/-- One entry of the rendering loop (lib.rs 269-275): `writeln!` of
either `"{top}* **`{f}`**{default} —{comment}"` or, for a
blank attached comment, `"{top}* **`{f}`**{default}\n"`. -/
def renderOne (ds : List String) (e : String × String × String) : String :=
  let dflt := if ds.contains e.1 then " *(enabled by default)*" else ""
  if !strIsEmpty (strTrim e.2.2) then
    e.2.1 ++ "* **`" ++ e.1 ++ "`**" ++ dflt ++ " —" ++ e.2.2 ++ "\n"
  else
    e.2.1 ++ "* **`" ++ e.1 ++ "`**" ++ dflt ++ "\n\n"

/-- The rendering loop plus the trailing pending `top_comment`
(lib.rs 268-277). -/
def render (ds : List String) (fs : List (String × String × String)) (top : String) : String :=
  (fs.foldl (fun result e => result ++ renderOne ds e) "") ++ top

/-- `process_toml` (lib.rs 178-279). -/
def process_toml (cargo_toml : String) : Except String String :=
  let lines := tomlLines cargo_toml
  match processLines lines.length initState lines with
  | .error e => .error e
  | .ok st =>
    if st.current_comment ≠ "" then .error "Found comment not associated with a feature"
    else if st.features.isEmpty then
      .error "Could not find documented features in Cargo.toml"
    else .ok (render st.default_features st.features st.top_comment)

/-! ## Spec-side definitions -/

/-- Spec-side: the fixed head of a rendered entry line (spec section 4.3):
the grouping-block text followed by the list-item marker around the name. -/
def entryHead (name grouping : String) : String := grouping ++ "* **`" ++ name ++ "`**"

/-- Spec-side: the tail of a rendered entry line (spec section 4.3): the
dash-comment suffix, or a bare line end plus a blank line when the
attached comment is blank/whitespace-only. -/
def entryTail (attached : String) : String :=
  if strIsEmpty (strTrim attached) then "\n\n" else " —" ++ attached ++ "\n"

/-- Spec-side shape of one rendered entry (spec section 4.3): grouping
text, then `* **`name`**`, the default marker exactly when the name is
in the default set, then the attached-comment tail. -/
def renderEntrySpec (ds : List String) (e : String × String × String) : String :=
  match e with
  | (name, grouping, attached) =>
    entryHead name grouping ++
      (if ds.contains name then " *(enabled by default)*" else "") ++
      entryTail attached

/-- Spec-side error condition of the Balanced-Value Reader (spec
section 4.2): the scan of the current line meets a closing bracket
outside quotes while the counter is zero (`scanChars` returns `none`),
or the supply of lines is exhausted while the counter is positive. -/
def gbErr (q : Bool) (lvl : Nat) (line : List Char) : List String → Bool
  | [] =>
    match scanChars false q lvl line with
    | none => true
    | some (_, _, lvl2) => if lvl2 = 0 then false else true
  | l :: rest =>
    match scanChars false q lvl line with
    | none => true
    | some (_, q2, lvl2) =>
      if lvl2 = 0 then false else gbErr q2 lvl2 (cutHashL l.data) rest

/-! Sanity checks on the balanced-value reader. -/

example : get_balanced "[1, 2]" [] = .ok ("[1, 2]", []) := by decide
example : get_balanced " [" ["\"]\",", "]"] = .ok (" [\"]\",]", []) := by decide
example : get_balanced "[" [] = .error "unbalanced source" := by decide
example : get_balanced "]" [] = .error "unbalanced source" := by decide

/-! Sanity checks replicating the crate's own unit tests (lib.rs 366-595). -/

example :
    process_toml "\n[features]\n[dependencies]\nfoo = 4;\n" =
      .error "Could not find documented features in Cargo.toml" := by decide

example :
    process_toml "\n[features]\nff = []\n[abcd\nefgh\n[dependencies]\n" =
      .error "Parse error while parsing line: [abcd" := by decide

example :
    process_toml "\n[features]\n## dd\n## ff\n#! ee\n## ff\n" =
      .error "Cannot mix ## and #! comments between features." := by decide

example :
    process_toml "\n[features]\n## dd\n" =
      .error "Found comment not associated with a feature" := by decide

example :
    process_toml "\n## hallo\n[features]\n" =
      .error "Not a feature: `[features]`" := by decide

example :
    process_toml "\n[package]\n## hallo\nfoo = []\n" =
      .error "Comment cannot be associated with a feature:  hallo\n" := by decide

example :
    process_toml
      "\n[abcd]\n[features]#xyz\n#! abc\n#\n###\n#! def\n#!\n## 123\n## 456\nfeat1 = [\"plop\"]\n#! ghi\nno_doc = []\n##\nfeat2 = [\"momo\"]\n#! klm\ndefault = [\"feat1\", \"something_else\"]\n#! end\n" =
      .ok " abc\n def\n\n* **`feat1`** *(enabled by default)* —  123\n  456\n\n ghi\n* **`feat2`**\n\n klm\n end\n" := by
  decide

/-! ## Helper lemmas on strings and lists -/

theorem strData_append (a b : String) : (a ++ b).data = a.data ++ b.data := by
  obtain ⟨a⟩ := a
  obtain ⟨b⟩ := b
  rfl

theorem strAppend_assoc (a b c : String) : a ++ b ++ c = a ++ (b ++ c) := by
  obtain ⟨a⟩ := a
  obtain ⟨b⟩ := b
  obtain ⟨c⟩ := c
  show String.mk (a ++ b ++ c) = String.mk (a ++ (b ++ c))
  rw [List.append_assoc]

theorem strAppend_empty (a : String) : a ++ "" = a := by
  obtain ⟨a⟩ := a
  show String.mk (a ++ []) = String.mk a
  rw [List.append_nil]

theorem isPrefixOf_append_self (l t : List Char) : l.isPrefixOf (l ++ t) = true := by
  induction l with
  | nil => simp [List.isPrefixOf]
  | cons a l ih => simp [List.isPrefixOf, ih]

theorem containsL_append_left (sub xs ys : List Char) (h : containsL sub ys = true) :
    containsL sub (xs ++ ys) = true := by
  induction xs with
  | nil => simpa using h
  | cons a xs ih => simp [containsL, ih]

theorem containsL_here (sub t : List Char) : containsL sub (sub ++ t) = true := by
  cases sub with
  | nil => cases t <;> simp [containsL, List.isEmpty]
  | cons a l => simp [containsL, isPrefixOf_append_self]

/-- A string decomposing as `pre ++ (sub ++ suf)` contains `sub`. -/
theorem containsS_of_decomp (s pre sub suf : String) (h : s = pre ++ (sub ++ suf)) :
    containsS s sub = true := by
  subst h
  unfold containsS
  rw [strData_append, strData_append]
  exact containsL_append_left _ _ _ (containsL_here _ _)

theorem cutHashL_idem (l : List Char) : cutHashL (cutHashL l) = cutHashL l := by
  induction l with
  | nil => rfl
  | cons a l ih =>
    by_cases h : a = hashc
    · simp [cutHashL, List.takeWhile, h]
    · simpa [cutHashL, List.takeWhile, h] using ih

/-! ## Lemmas about the balanced-value reader -/

theorem gbLoop_error_msg :
    ∀ (ls : List String) (q : Bool) (lvl : Nat) (line acc : List Char) (e : String),
      gbLoop q lvl line acc ls = .error e → e = "unbalanced source" := by
  intro ls
  induction ls with
  | nil =>
    intro q lvl line acc e h
    rw [gbLoop] at h
    cases hsc : scanChars false q lvl line with
    | none => rw [hsc] at h; exact (Except.error.inj h).symm
    | some r =>
      obtain ⟨sl2, q2, lvl2⟩ := r
      rw [hsc] at h
      by_cases h0 : lvl2 = 0
      · simp [h0] at h
      · simp [h0] at h; exact h.symm
  | cons l rest ih =>
    intro q lvl line acc e h
    rw [gbLoop] at h
    cases hsc : scanChars false q lvl line with
    | none => rw [hsc] at h; exact (Except.error.inj h).symm
    | some r =>
      obtain ⟨sl2, q2, lvl2⟩ := r
      rw [hsc] at h
      by_cases h0 : lvl2 = 0
      · simp [h0] at h
      · simp [h0] at h
        exact ih q2 lvl2 (cutHashL l.data) (acc ++ cutHashL l.data) e h

theorem gbLoop_err_iff :
    ∀ (ls : List String) (q : Bool) (lvl : Nat) (line acc : List Char),
      (∃ e, gbLoop q lvl line acc ls = .error e) ↔ gbErr q lvl line ls = true := by
  intro ls
  induction ls with
  | nil =>
    intro q lvl line acc
    rw [gbLoop, gbErr]
    cases hsc : scanChars false q lvl line with
    | none => simp
    | some r =>
      obtain ⟨sl2, q2, lvl2⟩ := r
      by_cases h0 : lvl2 = 0 <;> simp [h0]
  | cons l rest ih =>
    intro q lvl line acc
    rw [gbLoop, gbErr]
    cases hsc : scanChars false q lvl line with
    | none => simp
    | some r =>
      obtain ⟨sl2, q2, lvl2⟩ := r
      by_cases h0 : lvl2 = 0
      · simp [h0]
      · simpa [h0] using ih q2 lvl2 (cutHashL l.data) (acc ++ cutHashL l.data)

theorem gbLoop_ok_decomp :
    ∀ (ls : List String) (q : Bool) (lvl : Nat) (line acc : List Char)
      (v : String) (rest : List String),
      gbLoop q lvl line acc ls = .ok (v, rest) →
      ∃ consumed, ls = consumed ++ rest ∧
        v = String.mk (acc ++
          (consumed.map (fun l => cutHashL l.data)).foldr (fun a b => a ++ b) []) := by
  intro ls
  induction ls with
  | nil =>
    intro q lvl line acc v rest h
    rw [gbLoop] at h
    cases hsc : scanChars false q lvl line with
    | none => rw [hsc] at h; exact absurd h (by simp)
    | some r =>
      obtain ⟨sl2, q2, lvl2⟩ := r
      rw [hsc] at h
      by_cases h0 : lvl2 = 0
      · simp [h0] at h
        refine ⟨[], by simp [h.2], ?_⟩
        simp [← h.1]
      · simp [h0] at h
  | cons l rest0 ih =>
    intro q lvl line acc v rest h
    rw [gbLoop] at h
    cases hsc : scanChars false q lvl line with
    | none => rw [hsc] at h; exact absurd h (by simp)
    | some r =>
      obtain ⟨sl2, q2, lvl2⟩ := r
      rw [hsc] at h
      by_cases h0 : lvl2 = 0
      · simp [h0] at h
        refine ⟨[], by simp [h.2], ?_⟩
        simp [← h.1]
      · simp [h0] at h
        obtain ⟨consumed, hrest, hv⟩ :=
          ih q2 lvl2 (cutHashL l.data) (acc ++ cutHashL l.data) v rest h
        refine ⟨l :: consumed, by simp [hrest], ?_⟩
        simp [hv, List.append_assoc]

/-- The per-character early-return condition of the scan: exactly a
closing bracket met outside quotes (and not escape-shadowed) while the
nesting counter is zero. -/
theorem scanChar_none_iff (sl q : Bool) (lvl : Nat) (c : Char) :
    scanChar sl q lvl c = none ↔
      sl = false ∧ q = false ∧ lvl = 0 ∧ (c = '}' ∨ c = ']') := by
  constructor
  · intro h
    unfold scanChar at h
    split_ifs at h with h1 h2 h3 h4 h5 h6 h7 h8
    exact ⟨by simp_all, by simp_all, h8, h7⟩
  · rintro ⟨hsl, hq, hlvl, hbr⟩
    subst hsl
    subst hq
    subst hlvl
    rcases hbr with rfl | rfl <;> decide

theorem scanChars_none_iff :
    ∀ (cs : List Char) (sl q : Bool) (lvl : Nat),
      scanChars sl q lvl cs = none ↔
        ∃ cs1 c cs2, cs = cs1 ++ c :: cs2 ∧
          scanChars sl q lvl cs1 = some (false, false, 0) ∧ (c = '}' ∨ c = ']') := by
  intro cs
  induction cs with
  | nil =>
    intro sl q lvl
    constructor
    · intro h; exact absurd h (by simp [scanChars])
    · rintro ⟨cs1, c, cs2, habs, -, -⟩
      exact absurd habs (by simp)
  | cons c cs ih =>
    intro sl q lvl
    rw [scanChars]
    cases hc : scanChar sl q lvl c with
    | none =>
      constructor
      · intro _
        obtain ⟨hsl, hq, hlvl, hbr⟩ := (scanChar_none_iff sl q lvl c).mp hc
        subst hsl
        subst hq
        subst hlvl
        exact ⟨[], c, cs, rfl, rfl, hbr⟩
      · intro _
        rfl
    | some r =>
      obtain ⟨sl2, q2, lvl2⟩ := r
      rw [ih sl2 q2 lvl2]
      constructor
      · rintro ⟨cs1, c1, cs2, hcs, hscan, hbr⟩
        refine ⟨c :: cs1, c1, cs2, by simp [hcs], ?_, hbr⟩
        rw [scanChars, hc]
        exact hscan
      · rintro ⟨cs1, c1, cs2, hcs, hscan, hbr⟩
        cases cs1 with
        | nil =>
          simp only [List.nil_append, List.cons.injEq] at hcs
          obtain ⟨hc1, hcs2⟩ := hcs
          rw [scanChars] at hscan
          have htrip := Option.some.inj hscan
          have hsl : sl = false := congrArg (fun p => p.1) htrip
          have hq : q = false := congrArg (fun p => p.2.1) htrip
          have hlvl : lvl = 0 := congrArg (fun p => p.2.2) htrip
          have hnone : scanChar sl q lvl c = none := by
            rw [scanChar_none_iff]
            exact ⟨hsl, hq, hlvl, hc1 ▸ hbr⟩
          rw [hnone] at hc
          exact absurd hc (by simp)
        | cons c0 cs1t =>
          simp only [List.cons_append, List.cons.injEq] at hcs
          obtain ⟨hc0, hcs2⟩ := hcs
          subst hc0
          rw [scanChars, hc] at hscan
          exact ⟨cs1t, c1, cs2, hcs2, hscan, hbr⟩

/-- Pre-stripping every line at its first `#` does not change the
reader's behaviour (it strips each consumed line itself), apart from the
remaining lines being returned pre-stripped as well. -/
theorem gbLoop_cutHash :
    ∀ (ls : List String) (q : Bool) (lvl : Nat) (line acc : List Char),
      gbLoop q lvl line acc (ls.map cutHashS) =
        (gbLoop q lvl line acc ls).map (fun p => (p.1, p.2.map cutHashS)) := by
  intro ls
  induction ls with
  | nil =>
    intro q lvl line acc
    rw [List.map_nil, gbLoop]
    cases hsc : scanChars false q lvl line with
    | none => simp [Except.map]
    | some r =>
      obtain ⟨sl2, q2, lvl2⟩ := r
      by_cases h0 : lvl2 = 0 <;> simp [h0, gbLoop, hsc, Except.map]
  | cons l rest ih =>
    intro q lvl line acc
    rw [List.map_cons, gbLoop]
    cases hsc : scanChars false q lvl line with
    | none => simp [gbLoop, hsc, Except.map]
    | some r =>
      obtain ⟨sl2, q2, lvl2⟩ := r
      by_cases h0 : lvl2 = 0
      · simp [h0, gbLoop, hsc, Except.map]
      · have hdata : (cutHashS l).data = cutHashL l.data := rfl
        simp only [gbLoop, hsc, h0, if_false, hdata, cutHashL_idem]
        exact ih q2 lvl2 (cutHashL l.data) (acc ++ cutHashL l.data)

theorem strEmpty_append (a : String) : "" ++ a = a := by
  obtain ⟨a⟩ := a
  show String.mk ([] ++ a) = String.mk a
  rw [List.nil_append]

/-- A string ending in `sub` contains `sub`. -/
theorem containsS_right (x sub : String) : containsS (x ++ sub) sub = true :=
  containsS_of_decomp _ x sub "" (by rw [strAppend_empty])

/-! ## Lemmas about the renderer -/

theorem renderOne_eq_spec (ds : List String) (e : String × String × String) :
    renderOne ds e = renderEntrySpec ds e := by
  obtain ⟨n, g, a⟩ := e
  unfold renderOne renderEntrySpec entryHead entryTail
  cases hb : strIsEmpty (strTrim a) <;> simp [hb, strAppend_assoc]

theorem render_eq_spec (ds : List String) (fs : List (String × String × String))
    (top : String) :
    render ds fs top =
      (fs.map (renderEntrySpec ds)).foldr (fun a b => a ++ b) "" ++ top := by
  unfold render
  have h : ∀ (l : List (String × String × String)) (init : String),
      l.foldl (fun result e => result ++ renderOne ds e) init =
        init ++ (l.map (renderEntrySpec ds)).foldr (fun a b => a ++ b) "" := by
    intro l
    induction l with
    | nil => intro init; simp [strAppend_empty]
    | cons e t ih =>
      intro init
      rw [List.foldl_cons, ih, renderOne_eq_spec, List.map_cons, List.foldr_cons,
        strAppend_assoc]
  rw [h, strEmpty_append]

/-! ## The claims -/

/-- C1: the renderer emits the collected entries in their source (creation)
order — the output is the concatenation, in order, of each entry's
grouping-block text followed by its `* **`name`**` list-item line (default
marker exactly when the name is in the default set, then the dash-comment
suffix, or no suffix but a following blank line when the attached comment is
blank/whitespace-only) — and every successful `process_toml` run returns
exactly such a rendering of its final state, with the still-pending
grouping-block text appended after all entries. -/
theorem c1_render_order_and_shape :
    (∀ (ds : List String) (fs : List (String × String × String)) (top : String),
      render ds fs top =
        (fs.map (renderEntrySpec ds)).foldr (fun a b => a ++ b) "" ++ top)
    ∧ (∀ (toml out : String), process_toml toml = .ok out →
        ∃ st : PState, out = render st.default_features st.features st.top_comment) := by
  constructor
  · exact render_eq_spec
  · intro toml out h
    simp only [process_toml] at h
    cases hp : processLines (tomlLines toml).length initState (tomlLines toml) with
    | error e => rw [hp] at h; exact absurd h (by simp)
    | ok st =>
      rw [hp] at h
      by_cases h1 : st.current_comment ≠ ""
      · simp [h1] at h
      · simp only [h1, if_false, if_neg h1] at h
        by_cases h2 : st.features.isEmpty
        · simp [h2] at h
        · simp only [h2, if_false, if_neg h2] at h
          exact ⟨st, (Except.ok.inj h).symm⟩

/-- C1 witness at a concrete manifest. -/
theorem c1_render_order_and_shape_witness :
    ∃ st : PState,
      "* **`ff`** —  x\n\n" = render st.default_features st.features st.top_comment :=
  c1_render_order_and_shape.2 "[features]\n## x\nff = []" "* **`ff`** —  x\n\n" (by decide)

/-- C2: the rendered line of an entry carries the enabled-by-default marker
exactly when the entry's name is a member of the default set (the marker slot
is the marker string iff membership, and empty otherwise); and the default
set is populated by the `default` key of the features section: the balanced
value, trimmed and stripped of its surrounding brackets, is split at commas,
each item is trimmed of surrounding whitespace and quote characters, empty
items are discarded, and the resulting names extend the default set. -/
theorem c2_default_marker_iff_member :
    (∀ (ds : List String) (e : String × String × String),
      renderOne ds e =
        entryHead e.1 e.2.1 ++
          (if ds.contains e.1 then " *(enabled by default)*" else "") ++ entryTail e.2.2)
    ∧ (∀ (st : PState) (dep rest0 : String) (lines : List String)
        (v : String) (lines2 : List String) (inner : String),
        get_balanced rest0 lines = .ok (v, lines2) →
        st.current_table = "features" →
        strTrim dep = "default" →
        st.current_comment = "" →
        stripBrackets (strTrim v) = some inner →
        handleKV st dep rest0 lines = .ok
          ({ st with default_features := st.default_features ++
              (((splitCharL ',' inner.data).map (fun d => cleanItem (String.mk d))).filter
                (fun d => d ≠ "")) }, lines2)) := by
  constructor
  · intro ds e
    obtain ⟨n, g, a⟩ := e
    rw [renderOne_eq_spec]
    rfl
  · intro st dep rest0 lines v lines2 inner hgb htable hdep hcc hstrip
    unfold handleKV
    rw [hgb]
    simp [htable, hdep, parseDefaultItems, hstrip, hcc]

/-- C2 witness at a concrete state and `default` line. -/
theorem c2_default_marker_iff_member_witness :
    handleKV ⟨"", "", [], [], "features"⟩ "default" " [\"a\", b ]" [] =
      .ok (⟨"", "", [], ["a", "b"], "features"⟩, []) := by
  have h := c2_default_marker_iff_member.2 ⟨"", "", [], [], "features"⟩ "default"
    " [\"a\", b ]" [] " [\"a\", b ]" [] "\"a\", b " (by decide) rfl (by decide) rfl
    (by decide)
  simpa using h

/-- C3: on a table-header line scanned while the attached comment block is
non-empty, an entry is created from the header itself exactly when the
bracketed path (the trimmed text before the first `]`) splits at its final
dot into a prefix whose trim ends with `dependencies`; then the final path
segment (trimmed) becomes the entry name and both pending comment blocks are
flushed into it; otherwise the result is the error
`Not a feature: `<line>``, which names the offending header line. -/
theorem c3_header_entry_iff_dotted_dependency :
    ∀ (st : PState) (line t r : String),
      splitOnceS (strDrop line 1) "]" = some (t, r) →
      st.current_comment ≠ "" →
      ((∀ tb dp, rsplitOnceS (strTrim t) "." = some (tb, dp) →
          (strEndsWith (strTrim tb) "dependencies" = true →
            handleHeader st line = .ok
              { st with current_table := strTrim t,
                        features := st.features ++
                          [(strTrim dp, st.top_comment, st.current_comment)],
                        top_comment := "", current_comment := "" })
          ∧ (strEndsWith (strTrim tb) "dependencies" = false →
              handleHeader st line = .error ("Not a feature: `" ++ line ++ "`")))
        ∧ (rsplitOnceS (strTrim t) "." = none →
            handleHeader st line = .error ("Not a feature: `" ++ line ++ "`"))
        ∧ containsS ("Not a feature: `" ++ line ++ "`") line = true) := by
  intro st line t r hsplit hcc
  refine ⟨?_, ?_, ?_⟩
  · intro tb dp hr
    constructor
    · intro hdeps
      unfold handleHeader
      rw [hsplit]
      simp [hcc, hr, hdeps]
    · intro hdeps
      unfold handleHeader
      rw [hsplit]
      simp [hcc, hr, hdeps]
  · intro hr
    unfold handleHeader
    rw [hsplit]
    simp [hcc, hr]
  · exact containsS_of_decomp _ "Not a feature: `" line "`" (strAppend_assoc _ _ _)

/-- C3 witness at a concrete header line. -/
theorem c3_header_entry_iff_dotted_dependency_witness :
    handleHeader ⟨"", " c\n", [], [], ""⟩ "[dependencies.foo]" =
      .ok ⟨"", "", [("foo", "", " c\n")], [], "dependencies.foo"⟩ ∧
    handleHeader ⟨"", " c\n", [], [], ""⟩ "[features]" =
      .error "Not a feature: `[features]`" := by
  have h := c3_header_entry_iff_dotted_dependency ⟨"", " c\n", [], [], ""⟩
    "[dependencies.foo]" "dependencies.foo" "" (by decide) (by decide)
  have h2 := c3_header_entry_iff_dotted_dependency ⟨"", " c\n", [], [], ""⟩
    "[features]" "features" "" (by decide) (by decide)
  constructor
  · have := (h.1 "dependencies" "foo" (by decide)).1 (by decide)
    simpa using this
  · exact h2.2.1 (by decide)

/-- C4: a key/value line scanned while the attached comment block is
non-empty under a table whose name ends with `dependencies` is accepted as a
documented entry exactly when the joined value passes the `optional = true`
test (it contains `optional`, and the text after its first occurrence,
trimmed, starts with `=` whose right-hand side, trimmed, starts with `true`);
otherwise the result is an error containing "not an optional dependency". -/
theorem c4_dependency_needs_optional_true :
    ∀ (st : PState) (dep rest0 : String) (lines : List String)
      (v : String) (lines2 : List String),
      get_balanced rest0 lines = .ok (v, lines2) →
      st.current_comment ≠ "" →
      strEndsWith st.current_table "dependencies" = true →
      ((optionalTrue v = true →
          handleKV st dep rest0 lines = .ok (pushFeature st (strTrim dep), lines2))
        ∧ (optionalTrue v = false →
            handleKV st dep rest0 lines =
              .error ("Dependency " ++ strTrim dep ++ " is not an optional dependency"))
        ∧ containsS ("Dependency " ++ strTrim dep ++ " is not an optional dependency")
            "not an optional dependency" = true) := by
  intro st dep rest0 lines v lines2 hgb hcc hdeps
  have hnf : ¬ st.current_table = "features" := by
    intro h
    rw [h] at hdeps
    exact absurd hdeps (by decide)
  refine ⟨?_, ?_, ?_⟩
  · intro hopt
    unfold handleKV
    rw [hgb]
    simp [hnf, hcc, hdeps, hopt]
  · intro hopt
    unfold handleKV
    rw [hgb]
    simp [hnf, hcc, hdeps, hopt]
  · have h1 : ("Dependency " ++ strTrim dep ++ " is not an optional dependency") =
        ("Dependency " ++ strTrim dep ++ " is ") ++ "not an optional dependency" := by
      rw [strAppend_assoc, strAppend_assoc, strAppend_assoc]
      exact congrArg (fun z => "Dependency " ++ (strTrim dep ++ z)) (by decide)
    rw [h1]
    exact containsS_right _ _

/-- C4 witness: a non-optional and an optional concrete dependency line. -/
theorem c4_dependency_needs_optional_true_witness :
    handleKV ⟨"", " c\n", [], [], "dev-dependencies"⟩ " foo" " \"1.2\"" [] =
      .error "Dependency foo is not an optional dependency" ∧
    handleKV ⟨"", " c\n", [], [], "dev-dependencies"⟩ " foo" " [ optional = true ]" [] =
      .ok (⟨"", "", [("foo", "", " c\n")], [], "dev-dependencies"⟩, []) := by
  have h1 := c4_dependency_needs_optional_true ⟨"", " c\n", [], [], "dev-dependencies"⟩
    " foo" " \"1.2\"" [] " \"1.2\"" [] (by decide) (by decide) (by decide)
  have h2 := c4_dependency_needs_optional_true ⟨"", " c\n", [], [], "dev-dependencies"⟩
    " foo" " [ optional = true ]" [] " [ optional = true ]" [] (by decide) (by decide)
    (by decide)
  constructor
  · have := h1.2.1 (by decide)
    simpa using this
  · have := h2.1 (by decide)
    simpa using this

/-- C5: `get_balanced` fails exactly with the "unbalanced" error, and it
fails if and only if either the scan of some consumed line meets a closing
bracket (`}` or `]`) outside quotes while the nesting counter is zero, or the
supply of lines is exhausted while the counter is still positive; otherwise
it returns the joined (comment-stripped) text of the consumed lines once the
counter is zero at the end of a processed line; and from a key/value line the
error is propagated wrapped with the key name, the message containing
"Parse error while parsing dependency <key>". -/
theorem c5_unbalanced_characterization :
    ∀ (fl : String) (ls : List String),
      ((∃ e, get_balanced fl ls = .error e) ↔ gbErr false 0 (cutHashL fl.data) ls = true)
      ∧ (∀ e, get_balanced fl ls = .error e → e = "unbalanced source")
      ∧ (∀ v rest, get_balanced fl ls = .ok (v, rest) →
          ∃ consumed, ls = consumed ++ rest ∧
            v = String.mk (cutHashL fl.data ++
              (consumed.map (fun l => cutHashL l.data)).foldr (fun a b => a ++ b) []))
      ∧ (∀ (sl q : Bool) (lvl : Nat) (cs : List Char),
          scanChars sl q lvl cs = none ↔
            ∃ cs1 c cs2, cs = cs1 ++ c :: cs2 ∧
              scanChars sl q lvl cs1 = some (false, false, 0) ∧ (c = '}' ∨ c = ']'))
      ∧ (∀ (st : PState) (dep rest0 : String) (lines : List String) (e : String),
          get_balanced rest0 lines = .error e →
          handleKV st dep rest0 lines =
            .error ("Parse error while parsing dependency " ++ dep ++ ": " ++ e)
          ∧ containsS ("Parse error while parsing dependency " ++ dep ++ ": " ++ e)
              ("Parse error while parsing dependency " ++ dep) = true) := by
  intro fl ls
  refine ⟨?_, ?_, ?_, ?_, ?_⟩
  · exact gbLoop_err_iff ls false 0 (cutHashL fl.data) (cutHashL fl.data)
  · intro e h
    exact gbLoop_error_msg ls false 0 _ _ e h
  · intro v rest h
    exact gbLoop_ok_decomp ls false 0 _ _ v rest h
  · intro sl q lvl cs
    exact scanChars_none_iff cs sl q lvl
  · intro st dep rest0 lines e h
    constructor
    · unfold handleKV
      rw [h]
    · apply containsS_of_decomp _ ""
        ("Parse error while parsing dependency " ++ dep) (": " ++ e)
      rw [strEmpty_append, strAppend_assoc]

/-- C5 witness: concrete balanced, unbalanced, and wrapped invocations. -/
theorem c5_unbalanced_characterization_witness :
    (∃ consumed, ["]"] = consumed ++ ([] : List String) ∧
      "[]" = String.mk (cutHashL "[".data ++
        (consumed.map (fun l => cutHashL l.data)).foldr (fun a b => a ++ b) [])) ∧
    (∃ e, get_balanced "]" [] = .error e) ∧
    handleKV ⟨"", "", [], [], "features"⟩ "foo " " [" [] =
      .error "Parse error while parsing dependency foo : unbalanced source" := by
  refine ⟨?_, ?_, ?_⟩
  · exact (c5_unbalanced_characterization "[" ["]"]).2.2.1 "[]" [] (by decide)
  · exact (c5_unbalanced_characterization "]" []).1.mpr (by decide)
  · have h := ((c5_unbalanced_characterization "x" []).2.2.2.2
      ⟨"", "", [], [], "features"⟩ "foo " " [" [] "unbalanced source" (by decide)).1
    have heq : ("Parse error while parsing dependency " ++ "foo " ++ ": " ++
        "unbalanced source" : String) =
        "Parse error while parsing dependency foo : unbalanced source" := by decide
    rw [heq] at h
    exact h

/-- C6 counterexample: an attached `##` line arriving while a grouping `#!`
block is pending is accepted, leaving both blocks pending simultaneously, and
the whole manifest still parses successfully — refuting the claim that
encountering a line of either comment kind while a block of the other kind is
non-empty is a structural error. -/
theorem c6_mixing_counterexample :
    processLine ⟨" a\n", "", [], [], "features"⟩ "## b" [] =
      .ok (⟨" a\n", "  b\n", [], [], "features"⟩, []) ∧
    process_toml "[features]\n#! a\n## b\nfoo = []" =
      .ok " a\n* **`foo`** —  b\n\n" := by
  refine ⟨by decide, by decide⟩

/-- C6 (amended): the mutual-exclusion check is one-directional only: a
grouping (`#!`) doc-comment line scanned while the attached block is
non-empty yields the error "Cannot mix ## and #! comments between features.",
while an attached (`##`) doc-comment line is always appended to the attached
block, even while a grouping block is pending. -/
theorem c6_cannot_mix_one_directional :
    ∀ (st : PState) (line : String) (rest : List String),
      strStartsWith line "#!" = true →
      (strDrop line 2 = "" ∨ strStartsWith (strDrop line 2) " " = true) →
      st.current_comment ≠ "" →
      processLine st line rest =
        .error "Cannot mix ## and #! comments between features."
      ∧ ∀ (st2 : PState) (l2 : String) (r2 : List String),
          strStartsWith l2 "#!" = false →
          strStartsWith l2 "##" = true →
          (strDrop l2 2 = "" ∨ strStartsWith (strDrop l2 2) " " = true) →
          processLine st2 l2 r2 =
            .ok ({ st2 with current_comment :=
              st2.current_comment ++ " " ++ strDrop l2 2 ++ "\n" }, r2) := by
  intro st line rest hst hdoc hcc
  have hemp : strIsEmpty "" = true := by decide
  constructor
  · rcases hdoc with hx | hx
    · simp [processLine, hst, hx, hcc, hemp]
    · simp [processLine, hst, hx, hcc]
  · intro st2 l2 r2 hnot hsh hdoc2
    rcases hdoc2 with hx | hx
    · simp [processLine, hnot, hsh, hx, hemp]
    · simp [processLine, hnot, hsh, hx]

/-- C6 witness at a concrete state and grouping line. -/
theorem c6_cannot_mix_one_directional_witness :
    processLine ⟨"", " c\n", [], [], "features"⟩ "#! x" [] =
      .error "Cannot mix ## and #! comments between features." :=
  (c6_cannot_mix_one_directional ⟨"", " c\n", [], [], "features"⟩ "#! x" []
    (by decide) (Or.inr (by decide)) (by decide)).1

/-- C7: every line consumed by `get_balanced` (first remainder line and each
continuation line) is cut at its first `#` before the quote-and-bracket scan:
pre-stripping every line changes nothing (except that the remaining lines
come back pre-stripped too), only the retained text is scanned and
concatenated, and a `#` inside a quoted string literal is stripped as well,
as the concrete truncated value shows. -/
theorem c7_hash_stripped_before_scan :
    (∀ (fl : String) (ls : List String),
      get_balanced (cutHashS fl) (ls.map cutHashS) =
        (get_balanced fl ls).map (fun p => (p.1, p.2.map cutHashS)))
    ∧ get_balanced "\"x#y\"" [] = .ok ("\"x", [])
    ∧ cutHashS "\"x#y\"" = "\"x" := by
  refine ⟨?_, by decide, by decide⟩
  intro fl ls
  have hdata : (cutHashS fl).data = cutHashL fl.data := rfl
  unfold get_balanced
  rw [hdata, cutHashL_idem]
  exact gbLoop_cutHash ls false 0 _ _

/-- C8 counterexample: outside quotes a `'` does not toggle the quoted flag
(only `"` enters quote mode), so a bracket inside a single-quoted string is
counted by the nesting scan: the value `'['` is reported unbalanced. -/
theorem c8_single_quote_counterexample :
    scanChar false false 0 squote = some (false, false, 0) ∧
    scanChar false false 0 squote ≠ some (false, true, 0) ∧
    get_balanced (String.mk [squote, '[', squote]) [] = .error "unbalanced source" := by
  refine ⟨by decide, by decide, by decide⟩

/-- C8 (amended): the quoted flag is set by an unescaped `"` met outside
quotes — a `'` met outside quotes has no effect — and cleared by an unescaped
`"` or `'` met inside quotes; hence brackets inside a double-quoted string
are excluded from the nesting count, while brackets inside a single-quoted
string entered from outside are counted. -/
theorem c8_quote_toggle_asymmetric :
    ∀ (lvl : Nat) (c : Char),
      scanChar false false lvl dquote = some (false, true, lvl)
      ∧ scanChar false false lvl squote = some (false, false, lvl)
      ∧ scanChar false true lvl dquote = some (false, false, lvl)
      ∧ scanChar false true lvl squote = some (false, false, lvl)
      ∧ scanChar true true lvl c = some (false, true, lvl)
      ∧ scanChars false false 0 ("\"[\"".data) = some (false, false, 0)
      ∧ scanChars false false 0 (String.mk [squote, '[', squote]).data =
          some (false, false, 1) := by
  intro lvl c
  have h1 : ¬ squote = dquote := by decide
  have h2 : ¬ (squote = '{' ∨ squote = '[') := by decide
  have h3 : ¬ (squote = '}' ∨ squote = ']') := by decide
  have h4 : ¬ dquote = bslash := by decide
  have h5 : ¬ squote = bslash := by decide
  refine ⟨?_, ?_, ?_, ?_, ?_, by decide, by decide⟩
  · simp [scanChar]
  · simp [scanChar, h1, h2, h3]
  · simp [scanChar, h4]
  · simp [scanChar, h5]
  · simp [scanChar]

/-- C9 counterexample: a lone grouping (`#!`) comment under `[features]` with
no following key is not reported as "not associated with a feature": the
attached block is empty at end of input, no entry was created, and the error
is the no-documented-features one. -/
theorem c9_lone_grouping_counterexample :
    process_toml "[features]\n#! dd" =
      .error "Could not find documented features in Cargo.toml" ∧
    containsS "Could not find documented features in Cargo.toml"
      "not associated with a feature" = false := by
  refine ⟨by decide, by decide⟩

/-- C9 (amended): it is a lone attached (`##`) comment under `[features]`
with no following key that yields an error containing "not associated with a
feature"; a lone grouping (`#!`) comment yields the no-documented-features
error instead. -/
theorem c9_lone_attached_comment_error :
    process_toml "[features]\n## dd" =
      .error "Found comment not associated with a feature" ∧
    containsS "Found comment not associated with a feature"
      "not associated with a feature" = true := by
  refine ⟨by decide, by decide⟩

/-- C10: when an attached comment block is pending and the `default` key of
the features section is scanned (with a parsable bracketed list value),
`process_toml` both extends the default set with the listed names and creates
a documented entry named `default`, flushing both comment blocks into it; the
entry is rendered like any feature, carrying the enabled-by-default marker
exactly when the name `default` appears in its own list. -/
theorem c10_default_key_creates_entry :
    (∀ (st : PState) (dep rest0 : String) (lines : List String)
      (v : String) (lines2 : List String) (items : List String),
      get_balanced rest0 lines = .ok (v, lines2) →
      st.current_table = "features" →
      strTrim dep = "default" →
      st.current_comment ≠ "" →
      parseDefaultItems v = some items →
      handleKV st dep rest0 lines = .ok
        ({ st with default_features := st.default_features ++ items,
                   features := st.features ++
                     [("default", st.top_comment, st.current_comment)],
                   top_comment := "", current_comment := "" }, lines2))
    ∧ process_toml "[features]\n## doc\ndefault = [\"default\"]" =
        .ok "* **`default`** *(enabled by default)* —  doc\n\n"
    ∧ process_toml "[features]\n## doc\ndefault = [\"foo\"]" =
        .ok "* **`default`** —  doc\n\n" := by
  refine ⟨?_, by decide, by decide⟩
  intro st dep rest0 lines v lines2 items hgb htable hdep hcc hparse
  unfold handleKV
  rw [hgb]
  have hnd : strEndsWith "features" "dependencies" = false := by decide
  simp [htable, hdep, hparse, hcc, hnd, pushFeature]

/-- C10 witness at a concrete state and `default` line. -/
theorem c10_default_key_creates_entry_witness :
    handleKV ⟨" t\n", " c\n", [], [], "features"⟩ "default " " [\"default\"]" [] =
      .ok (⟨"", "", [("default", " t\n", " c\n")], ["default"], "features"⟩, []) := by
  have h := c10_default_key_creates_entry.1 ⟨" t\n", " c\n", [], [], "features"⟩
    "default " " [\"default\"]" [] " [\"default\"]" [] ["default"] (by decide) rfl
    (by decide) (by decide) (by decide)
  simpa using h

end DocumentFeatures
